import Mathlib

/-
  Verification of the spec for contiki-2.x `src/core/net/resolv.c`, the uIP
  DNS/mDNS hostname resolver.

  Shallow embedding conventions:
  * Machine bytes (`u8_t`) and 16-bit fields are `Nat` with explicit `% 256`
    or big-endian recombination `hi * 256 + lo` where the C code truncates or
    converts byte order.  C `int` arithmetic (after the usual arithmetic
    conversions / integer promotions) is embedded as `Int`.
  * The inbound datagram is a `List Nat` of exactly the received bytes.  Every
    memory read the C code performs against that buffer is a `pkt[c]?` lookup;
    a read past the end of the datagram yields `none`, which propagates: a
    function result of `none` means "the C code reads a byte lying outside the
    received datagram" (the C code itself has no bounds checks and would read
    whatever bytes follow in `uip_buf`).
  * `parse_name` mutates the buffer in place; its embedding returns both the
    number of bytes consumed (the cursor advance) and the mutated buffer.
-/

namespace Resolv

/-- Entry states of `struct namemap` (`STATE_UNUSED` .. `STATE_ERROR`). -/
def STATE_UNUSED : Nat := 0

/-- `STATE_NEW` in resolv.c. -/
def STATE_NEW : Nat := 1

/-- `STATE_ASKING` in resolv.c. -/
def STATE_ASKING : Nat := 2

/-- `STATE_DONE` in resolv.c. -/
def STATE_DONE : Nat := 3

/-- `STATE_ERROR` in resolv.c. -/
def STATE_ERROR : Nat := 4

/-- `RESOLV_ENTRIES` (default table capacity, 4). -/
def RESOLV_ENTRIES : Nat := 4

/-- `RESOLV_CONF_MAX_RETRIES` (unicast retry maximum, 8). -/
def RESOLV_CONF_MAX_RETRIES : Nat := 8

/-- `RESOLV_CONF_MAX_MDNS_RETRIES` (mDNS retry maximum, 3). -/
def RESOLV_CONF_MAX_MDNS_RETRIES : Nat := 3

/-- One slot of the resolver's fixed-capacity name table (`struct namemap`).
`ipaddr` is the 4-byte IPv4 address (`UIP_CONF_IPV6` off). -/
structure Namemap where
  state : Nat
  tmr : Nat
  retries : Nat
  seqno : Nat
  err : Nat
  is_mdns : Bool
  name : String
  ipaddr : List Nat
deriving Repr, DecidableEq

/-- A zeroed slot, as produced by the `memset(names,0,sizeof(names))` at
process start. -/
def unusedEntry : Namemap :=
  { state := 0, tmr := 0, retries := 0, seqno := 0, err := 0,
    is_mdns := false, name := "", ipaddr := [0, 0, 0, 0] }

/-- Fuel-indexed embedding of `parse_name` (resolv.c lines 278-311).  The C
function walks a wire-format DNS name starting at `query`:

- `n = *query`; if `n & 0xc0` is nonzero the byte is treated as a compression
  pointer: the byte is overwritten with `0`, the cursor advances past it, the
  loop breaks and the function returns `query + 1` (two bytes consumed in
  total, the second one never read);
- otherwise the length byte is overwritten with `'.'` (46), the cursor skips
  the `n` label characters (without reading them), and the `do..while`
  condition reads the byte at the new cursor: if it is `0` the loop ends and
  the function returns `query + 1` (consuming the terminator), else that byte
  is the next iteration's `n`.

The result is `(bytes consumed, mutated buffer)`.  `none` means the C code
reads past the end of the supplied buffer.  The fuel only bounds recursion
depth; each iteration consumes at least one byte, so fuel equal to the buffer
length is always sufficient. -/
def parseNameF : Nat → List Nat → Option (Nat × List Nat)
  | 0, _ => none
  | _ + 1, [] => none
  | fuel + 1, n :: rest =>
    if n &&& 192 ≠ 0 then
      some (2, 0 :: rest)
    else if rest.length < n then
      none
    else
      match rest.drop n with
      | [] => none
      | b :: _ =>
        if b = 0 then
          some (n + 2, 46 :: rest)
        else
          match parseNameF fuel (rest.drop n) with
          | none => none
          | some (c, m) => some (1 + n + c, 46 :: rest.take n ++ m)

/-- `parse_name` on a buffer: fuel `buf.length` always suffices. -/
def parseName (buf : List Nat) : Option (Nat × List Nat) :=
  parseNameF buf.length buf

/-! ### The response handler `newdata` (resolv.c lines 452-700)

Only the table state and the `resolv_found` events are observable to the
claims, so the embedding returns the updated table together with the list of
`resolv_found(name, address-or-NULL)` calls made during the invocation.
`parse_name`'s in-place buffer mutation only touches bytes the cursor has
already passed, and `newdata`'s cursor moves strictly forward, so later reads
are unaffected by it and the embedding can read from the original packet. -/

/-- `RESOLV_DECODE_INDEX` (resolv.c line 133):
`(unsigned char)(uip_ntohs(i) - 61616)`.  `idBE` is the big-endian value of
the 16-bit ID field (what `uip_ntohs` yields), in `[0, 65536)`.  The `u8_t`
cast of the C `int` difference is its value modulo 256; adding `65536`
(a multiple of 256) keeps the subtraction inside `Nat`. -/
def RESOLV_DECODE_INDEX (idBE : Nat) : Nat :=
  (idBE + 65536 - 61616) % 256

/-- `RESOLV_ENCODE_INDEX` (resolv.c line 132): the big-endian value written
into the ID field of an outgoing query for table slot `i` is `i + 61616`. -/
def RESOLV_ENCODE_INDEX (i : Nat) : Nat :=
  (i + 61616) % 65536

/-- Skipping the name at cursor `c` of an answer or question record
(resolv.c lines 631-643 and 651-663): if the first byte has a bit of `0xc0`
set the cursor advances exactly 2 bytes, otherwise `parse_name` walks the
label sequence. -/
def skipRecordName (pkt : List Nat) (c : Nat) : Option Nat :=
  match pkt[c]? with
  | none => none
  | some b =>
    if b &&& 192 ≠ 0 then some (c + 2)
    else
      match parseName (pkt.drop c) with
      | none => none
      | some p => some (c + p.1)

/-- The question-skipping loop of `newdata` (resolv.c lines 630-646): skip
the name, then 4 bytes of type/class, `nquestions` times. -/
def skipQuestions (pkt : List Nat) : Nat → Nat → Option Nat
  | 0, c => some c
  | k + 1, c =>
    match skipRecordName pkt c with
    | none => none
    | some c2 => skipQuestions pkt k (c2 + 4)

/-- Big-endian 16-bit read at offset `c` (a `u16_t` struct field compared or
converted with `uip_ntohs`/`uip_htons`). -/
def readU16 (pkt : List Nat) (c : Nat) : Option Nat :=
  match pkt[c]?, pkt[c + 1]? with
  | some hi, some lo => some (hi * 256 + lo)
  | _, _ => none

/-- The answer-walking loop of `newdata` (resolv.c lines 648-694), IPv4 build
(`UIP_CONF_IPV6` off).  `names1` already holds the provisional `STATE_ERROR`
entry `e1` at index `i`.  For each answer: skip the name, then evaluate

`ans->type == UIP_HTONS(DNS_TYPE_A)
   && (uip_ntohs(ans->class)&0x7FFF == DNS_CLASS_IN)
   && (ans->len == UIP_HTONS(4))`

with C's operator precedence, under which the middle conjunct parses as
`uip_ntohs(ans->class) & (0x7FFF == DNS_CLASS_IN)`; the embedding keeps that
shape literally as `cl &&& (if (32767 : Nat) = 1 then 1 else 0)`.  The
`&&` short-circuit order of the reads is preserved.  On a match the 4 address
bytes at offset 10 of the record are copied, the state becomes `STATE_DONE`,
one `resolv_found` event fires and the walk stops; otherwise the cursor
advances `10 + uip_htons(ans->len)` bytes and the count decrements. -/
def answerLoop (pkt : List Nat) (names1 : List Namemap) (i : Nat) (e1 : Namemap) :
    Nat → Nat → Option (List Namemap × List (String × Option (List Nat)))
  | 0, _ => some (names1, [])
  | k + 1, c =>
    match skipRecordName pkt c with
    | none => none
    | some c2 =>
      match readU16 pkt c2 with
      | none => none
      | some ty =>
        if ty = 1 then
          match readU16 pkt (c2 + 2) with
          | none => none
          | some cl =>
            if cl &&& (if (32767 : Nat) = 1 then 1 else 0) ≠ 0 then
              match readU16 pkt (c2 + 8) with
              | none => none
              | some ln =>
                if ln = 4 then
                  match pkt[c2 + 10]?, pkt[c2 + 11]?, pkt[c2 + 12]?, pkt[c2 + 13]? with
                  | some a0, some a1, some a2, some a3 =>
                    some (names1.set i
                            { e1 with state := STATE_DONE, ipaddr := [a0, a1, a2, a3] },
                          [(e1.name, some [a0, a1, a2, a3])])
                  | _, _, _, _ => none
                else
                  match readU16 pkt (c2 + 8) with
                  | none => none
                  | some ln2 => answerLoop pkt names1 i e1 k (c2 + 10 + ln2)
            else
              match readU16 pkt (c2 + 8) with
              | none => none
              | some ln2 => answerLoop pkt names1 i e1 k (c2 + 10 + ln2)
        else
          match readU16 pkt (c2 + 8) with
          | none => none
          | some ln2 => answerLoop pkt names1 i e1 k (c2 + 10 + ln2)

/-- `newdata` (resolv.c lines 452-700).  The packet's first 12 bytes are the
DNS header; the code reads its ID (bytes 0-1), flag bytes (2-3) and the
question/answer counts (4-5, 6-7), truncating each count to its low byte with
a `u8_t` cast.  Flag bytes both zero means the datagram is a query and goes to
the mDNS responder, which never touches the name table and emits no
`resolv_found` event (so for the table/event observables it is a no-op).
Otherwise the ID is decoded to a table index; an out-of-range index, an entry
not in `STATE_ASKING`, or a zero answer-count byte each cause a silent return.
Then the entry provisionally becomes `STATE_ERROR` with `err` from the low
nibble of flag byte 2; a nonzero response code fires one null-address event;
otherwise the questions are skipped and the answers walked. -/
def newdata (pkt : List Nat) (names : List Namemap) :
    Option (List Namemap × List (String × Option (List Nat))) :=
  match pkt with
  | b0 :: b1 :: b2 :: b3 :: _ :: b5 :: _ :: b7 :: _ =>
    if b2 = 0 ∧ b3 = 0 then some (names, [])
    else
      match names[RESOLV_DECODE_INDEX (b0 * 256 + b1)]? with
      | none => some (names, [])
      | some e =>
        if e.state ≠ STATE_ASKING then some (names, [])
        else if b7 = 0 then some (names, [])
        else if b3 &&& 15 ≠ 0 then
          some (names.set (RESOLV_DECODE_INDEX (b0 * 256 + b1))
                  { e with state := STATE_ERROR, err := b3 &&& 15 },
                [(e.name, none)])
        else
          match skipQuestions pkt b5 12 with
          | none => none
          | some c =>
            answerLoop pkt
              (names.set (RESOLV_DECODE_INDEX (b0 * 256 + b1))
                { e with state := STATE_ERROR, err := b3 &&& 15 })
              (RESOLV_DECODE_INDEX (b0 * 256 + b1))
              { e with state := STATE_ERROR, err := b3 &&& 15 }
              b7 c
  | _ => none

/-! ### `resolv_query`, `resolv_lookup` and the driver `check_entries`

Names are `String`s; C `strcmp` equality on the NUL-terminated entry names is
plain string equality (entry names fit the 32-byte field, so `strncpy` copies
them whole).  String-level operations are written over `String.toList` so
that everything evaluates by kernel reduction. -/

/-- Trailing-dot stripping shared by `resolv_query` (lines 803-812) and
`resolv_lookup` (lines 880-889): only when the last character is `'.'` are
all trailing dots removed. -/
def stripTrailingDots (s : String) : String :=
  match s.toList.getLast? with
  | some '.' => String.mk ((s.toList.reverse.dropWhile (fun ch => ch = '.')).reverse)
  | _ => s

/-- The mDNS test of `resolv_query` (lines 835-850):
`name_len > sizeof("local")-1 && 0==strcmp(name+name_len-5, "local")`,
i.e. length greater than 5 and the last five characters spelling `local`. -/
def resolvIsMdns (nm : String) : Bool :=
  decide (5 < nm.length) &&
    decide (nm.toList.drop (nm.toList.length - 5) = ['l', 'o', 'c', 'a', 'l'])

/-- The slot-selection loop of `resolv_query` (lines 814-828).  `sq` is the
global `seqno` counter (a `u8_t`, so in `[0,256)`); `i` the index of the head
of the remaining list; `lseq`/`lseqi` the running maximum and its index
(`static u8_t`, initialised to 0).  The loop breaks at the first entry that
is unused or whose name equals `nm`; otherwise it compares
`seqno - nameptr->seqno > lseq`, which by C's integer promotions is an `int`
comparison (both `u8_t` operands are promoted, so a wrapped difference is
negative rather than large) — embedded with `Int` subtraction.  When no entry
breaks the loop, `i == RESOLV_ENTRIES` and the chosen index is `lseqi`. -/
def selectGo (sq : Nat) (nm : String) : List Namemap → Nat → Nat → Nat → Nat
  | [], _, _, lseqi => lseqi
  | e :: rest, i, lseq, lseqi =>
    if e.state = STATE_UNUSED ∨ e.name = nm then i
    else if (sq : Int) - (e.seqno : Int) > (lseq : Int) then
      selectGo sq nm rest (i + 1) ((sq : Int) - (e.seqno : Int)).toNat i
    else
      selectGo sq nm rest (i + 1) lseq lseqi

/-- Index of the slot `resolv_query` writes. -/
def selectIndex (t : List Namemap) (sq : Nat) (nm : String) : Nat :=
  selectGo sq nm t 0 0 0

/-- `resolv_query` (lines 793-859) on the table observables: strips trailing
dots, picks a slot, recomputes `is_mdns`, copies the name, sets
`state = STATE_NEW`, stores the current global `seqno` in the entry and
increments the (8-bit) global counter.  `tmr`, `retries`, `err` and `ipaddr`
of the chosen slot are left as they were.  Returns the new table and the new
global counter. -/
def resolv_query (t : List Namemap) (sq : Nat) (name : String) :
    List Namemap × Nat :=
  match t[selectIndex t sq (stripTrailingDots name)]? with
  | none => (t, sq)
  | some e =>
    (t.set (selectIndex t sq (stripTrailingDots name))
        { e with is_mdns := resolvIsMdns (stripTrailingDots name),
                 name := stripTrailingDots name,
                 state := STATE_NEW, seqno := sq },
     (sq + 1) % 256)

/-- The table scan of `resolv_lookup` (lines 911-926): the first entry in
`STATE_DONE` whose name matches yields its stored address, else NULL. -/
def lookupScan (nm : String) : List Namemap → Option (List Nat)
  | [] => none
  | e :: rest =>
    if e.state = STATE_DONE ∧ e.name = nm then some e.ipaddr
    else lookupScan nm rest

/-- `resolv_lookup` (lines 874-931), with the compile-time
`UIP_CONF_LOOPBACK_INTERFACE` feature as a parameter.  When the feature is
on, the code runs `if(strcmp(name,"localhost")) return &loopback;` — `strcmp`
is nonzero exactly when the names differ, so every name other than
`"localhost"` returns the loopback address `127.0.0.1` and only
`"localhost"` itself falls through to the table scan. -/
def resolv_lookup (loopbackIface : Bool) (t : List Namemap) (name : String) :
    Option (List Nat) :=
  if loopbackIface ∧ stripTrailingDots name ≠ "localhost" then
    some [127, 0, 0, 1]
  else
    lookupScan (stripTrailingDots name) t

/-- One invocation of `check_entries` (lines 343-446), scanning from index
`i`.  For each entry in `STATE_NEW` or `STATE_ASKING`:

- `STATE_ASKING`, `--tmr` nonzero (8-bit decrement): keep the decremented
  timer and `continue` with the next entry;
- `STATE_ASKING`, `--tmr == 0`: `++retries`; if the new count equals the
  configured maximum (`RESOLV_CONF_MAX_MDNS_RETRIES` for mDNS entries,
  `RESOLV_CONF_MAX_RETRIES` otherwise), the entry becomes `STATE_ERROR`, one
  `resolv_found(name, NULL)` event fires and the scan continues; otherwise
  `tmr` is reloaded with the new retry count, a query packet is sent and the
  scan `break`s;
- `STATE_NEW`: the entry becomes `STATE_ASKING` with `tmr = 1`,
  `retries = 0`, a query packet is sent and the scan `break`s.

Returns the table, the `resolv_found` events and the indices for which a
packet was sent (in scan order). -/
def checkEntriesGo :
    List Namemap → Nat → List Namemap × List (String × Option (List Nat)) × List Nat
  | [], _ => ([], [], [])
  | ⟨st, tmr, rt, sq, er, md, nm, ip⟩ :: rest, i =>
    if st = STATE_NEW ∨ st = STATE_ASKING then
      if st = STATE_ASKING then
        if (tmr + 255) % 256 = 0 then
          if (rt + 1) % 256 =
              (if md then RESOLV_CONF_MAX_MDNS_RETRIES
               else RESOLV_CONF_MAX_RETRIES) then
            match checkEntriesGo rest (i + 1) with
            | (ts, ns, ss) =>
              (⟨STATE_ERROR, (tmr + 255) % 256, (rt + 1) % 256, sq, er, md, nm, ip⟩ :: ts,
               (nm, none) :: ns, ss)
          else
            (⟨st, (rt + 1) % 256, (rt + 1) % 256, sq, er, md, nm, ip⟩ :: rest, [], [i])
        else
          match checkEntriesGo rest (i + 1) with
          | (ts, ns, ss) =>
            (⟨st, (tmr + 255) % 256, rt, sq, er, md, nm, ip⟩ :: ts, ns, ss)
      else
        (⟨STATE_ASKING, 1, 0, sq, er, md, nm, ip⟩ :: rest, [], [i])
    else
      match checkEntriesGo rest (i + 1) with
      | (ts, ns, ss) => (⟨st, tmr, rt, sq, er, md, nm, ip⟩ :: ts, ns, ss)

/-- `check_entries` scans the whole table from index 0. -/
def check_entries (t : List Namemap) :
    List Namemap × List (String × Option (List Nat)) × List Nat :=
  checkEntriesGo t 0

/-- `k` consecutive driver invocations (timer ticks) with no inbound
datagrams in between; events accumulate in order. -/
def runTicks : Nat → List Namemap → List Namemap × List (String × Option (List Nat))
  | 0, t => (t, [])
  | k + 1, t =>
    match check_entries t with
    | (t2, ns, _) =>
      match runTicks k t2 with
      | (tf, nsl) => (tf, ns ++ nsl)

/-! ### Concrete scenarios used by the claim theorems -/

/-- An all-unused table (state right after resolver start-up). -/
def emptyTable : List Namemap :=
  [unusedEntry, unusedEntry, unusedEntry, unusedEntry]

/-- An entry that has just been queried (`resolv_query` leaves it in
`STATE_NEW`; the driver resets `tmr`/`retries` when it first acts on it). -/
def freshEntry (nm : String) (mdns : Bool) : Namemap :=
  { state := STATE_NEW, tmr := 0, retries := 0, seqno := 0, err := 0,
    is_mdns := mdns, name := nm, ipaddr := [0, 0, 0, 0] }

/-- A table whose only live entry is a freshly queried name. -/
def singleQueryTable (nm : String) (mdns : Bool) : List Namemap :=
  [freshEntry nm mdns, unusedEntry, unusedEntry, unusedEntry]

/-- Truncated response: a 12-byte datagram that is just a DNS header with
ID `61616` (slot 0), response flags `0x84 0x00`, zero questions and one
declared answer — but no answer bytes at all. -/
def pktTruncated : List Nat :=
  [240, 176, 132, 0, 0, 0, 0, 1, 0, 0, 0, 0]

/-- Table with slot 0 awaiting a response. -/
def tblAsking : List Namemap :=
  [{ unusedEntry with state := STATE_ASKING, name := "h" },
   unusedEntry, unusedEntry, unusedEntry]

/-- A perfectly well-formed matched response for slot 0: header
(ID `61616`, flags `0x84 0x00`, 0 questions, 1 answer), then one answer
record whose name is the 2-byte compression pointer `0xc0 0x0c`, type A (1),
class IN (1), TTL 120, resource length 4, address `93.184.216.34`. -/
def pktAnswerA : List Nat :=
  [240, 176, 132, 0, 0, 0, 0, 1, 0, 0, 0, 0,
   192, 12, 0, 1, 0, 1, 0, 0, 0, 120, 0, 4, 93, 184, 216, 34]

/-- Table with slot 0 asking for the name carried by `pktAnswerA`. -/
def tblWww : List Namemap :=
  [{ unusedEntry with state := STATE_ASKING, name := "www" },
   unusedEntry, unusedEntry, unusedEntry]

/-- A response whose 16-bit ID is `61872 = 61616 + 256`: not produced by
`RESOLV_ENCODE_INDEX` for any slot in `[0,4)`, yet its low-8-bit decode is 0.
Flags `0x84 0x03` carry response code 3 (name error); one declared answer. -/
def pktSpoofed : List Nat :=
  [241, 176, 132, 3, 0, 0, 0, 1, 0, 0, 0, 0]

/-- Table with slot 0 asking for a name, target of `pktSpoofed`. -/
def tblBar : List Namemap :=
  [{ unusedEntry with state := STATE_ASKING, name := "bar" },
   unusedEntry, unusedEntry, unusedEntry]

/-- Full table after the 8-bit sequence counter wrapped: the global counter
is 3 and the live entries carry `seqno` 255, 0, 1, 2.  Modulo 256, the entry
with `seqno = 255` (slot 0) is the oldest (age 4). -/
def tblWrapped : List Namemap :=
  [{ unusedEntry with state := STATE_DONE, name := "a", seqno := 255 },
   { unusedEntry with state := STATE_DONE, name := "b", seqno := 0 },
   { unusedEntry with state := STATE_DONE, name := "c", seqno := 1 },
   { unusedEntry with state := STATE_DONE, name := "d", seqno := 2 }]

/-- The wraparound-safe 8-bit age the spec describes: current counter minus
entry counter, modulo 256. -/
def specAge8 (sq s : Nat) : Nat :=
  (sq + 256 - s % 256) % 256

/-- Table whose first pending entry (slot 0) is `STATE_ASKING` with an
unexpired timer while slot 1 is `STATE_NEW`. -/
def tblTwoPending : List Namemap :=
  [{ unusedEntry with state := STATE_ASKING, name := "p", tmr := 2, retries := 1 },
   { unusedEntry with state := STATE_NEW, name := "q" },
   unusedEntry, unusedEntry]

/-! ### Wire-format names

`wirePrefix L` is the label sequence of an uncompressed DNS name (each label
as a length byte followed by its characters) without a terminator;
`wireName L` adds the terminating zero byte.  `dotPrefix`/`dotJoin` describe
the buffer `parse_name` leaves behind: every length byte replaced by `'.'`
(46), label characters untouched. -/

/-- Length-prefixed label sequence, no terminator. -/
def wirePrefix (L : List (List Nat)) : List Nat :=
  (L.map (fun l => l.length :: l)).flatten

/-- Complete uncompressed wire-format name: labels plus the zero terminator. -/
def wireName (L : List (List Nat)) : List Nat :=
  wirePrefix L ++ [0]

/-- The labels with each length byte replaced by `'.'` (46). -/
def dotPrefix (L : List (List Nat)) : List Nat :=
  (L.map (fun l => 46 :: l)).flatten

/-- The labels joined by `'.'` (46) separators: the dot-separated text that
starts one byte past the original cursor after `parse_name` ran. -/
def dotJoin : List (List Nat) → List Nat
  | [] => []
  | [l] => l
  | l :: L => l ++ 46 :: dotJoin L

/-- Number of table entries whose name equals `nm`. -/
def countNamed (nm : String) (t : List Namemap) : Nat :=
  (t.filter (fun e => e.name == nm)).length

/-- A completed entry for an unrelated name, occupying a slot before the
pending one in the reuse scenario. -/
def doneAaa : Namemap :=
  { state := STATE_DONE, tmr := 0, retries := 0, seqno := 4, err := 0,
    is_mdns := false, name := "aaa", ipaddr := [10, 0, 0, 5] }

/-- A pending (asking) entry for the name the reuse scenario re-queries. -/
def askFoo : Namemap :=
  { state := STATE_ASKING, tmr := 1, retries := 0, seqno := 9, err := 0,
    is_mdns := false, name := "foo", ipaddr := [0, 0, 0, 0] }

/-! ## Claim theorems -/

/-- Claim C1.  The claim states that parsing never reads a byte past the end
of the received datagram; the code has no bounds check at all, so the claim
fails.  This theorem evaluates the embedding (where `none` means "the C code
reads a byte outside the received datagram") at concrete malformed inputs:
a 2-byte datagram `[2, 97]` whose label length byte announces 2 characters
with only 1 present makes `parse_name` read past the end — appending the two
stray bytes `[99, 0]` that happen to follow in memory, `parse_name` consumes
4 bytes of a 2-byte datagram, treating the out-of-bounds byte `99` as a label
character; and `newdata` on a header-only response declaring one answer walks
straight past the end of the datagram. -/
theorem parsing_reads_past_datagram_end :
    parseName [2, 97] = none
    ∧ parseName ([2, 97] ++ [99, 0]) = some (4, [46, 97, 99, 0])
    ∧ newdata pktTruncated tblAsking = none :=
  ⟨rfl, rfl, rfl⟩

/-- Claim C2.  The claim states that a matched response's first answer record
of type A, class IN and resource length 4 is copied into the entry, the state
becomes Done and one event with the address fires.  In the IPv4 build the
class conjunct `uip_ntohs(ans->class)&0x7FFF == DNS_CLASS_IN` parses, by C
operator precedence, as `uip_ntohs(ans->class) & (0x7FFF == DNS_CLASS_IN)`,
which is `cl & 0 = 0`, i.e. false for every class value — so no record can
ever match (first conjunct below).  Evaluating `newdata` on a perfectly
matching response (`pktAnswerA`: type A, class IN, length 4) shows the entry
is left in `STATE_ERROR` and no event is emitted (second conjunct). -/
theorem matching_answer_rejected_by_class_check :
    (∀ cl : Nat, cl &&& (if (32767 : Nat) = 1 then 1 else 0) = 0)
    ∧ newdata pktAnswerA tblWww =
        some ([{ unusedEntry with state := STATE_ERROR, name := "www" },
               unusedEntry, unusedEntry, unusedEntry], []) := by
  constructor
  · intro cl
    simp
  · rfl

/-- Claim C3.  The claim states that with the loopback feature enabled, the
literal name `"localhost"` (and only that name) yields the loopback address
without consulting the table.  The code tests `if(strcmp(name,"localhost"))`,
which is true exactly when the names differ, so the behaviour is inverted:
on an all-unused table, `"example.com"` returns `127.0.0.1` and
`"localhost"` returns NULL. -/
theorem lookup_loopback_check_inverted :
    resolv_lookup true emptyTable "example.com" = some [127, 0, 0, 1]
    ∧ resolv_lookup true emptyTable "localhost" = none :=
  ⟨rfl, rfl⟩

/-- Claim C4.  The claim states the evicted slot is the one with the largest
age under wraparound-safe modulo-256 subtraction.  In
`if(seqno - nameptr->seqno > lseq)` both `u8_t` operands are promoted to
`int`, so a wrapped difference is negative, never greater than `lseq`.  With
global counter 3 and entry seqnos `[255, 0, 1, 2]`, the modulo-256 ages are
`[4, 3, 2, 1]` — slot 0 is strictly oldest — yet the code selects slot 1
(difference `3 - 255 = -252` loses to `3 - 0 = 3`) and overwrites it. -/
theorem eviction_misses_oldest_after_wraparound :
    selectIndex tblWrapped 3 "e" = 1
    ∧ (resolv_query tblWrapped 3 "e").1 =
        [{ unusedEntry with state := STATE_DONE, name := "a", seqno := 255 },
         { unusedEntry with state := STATE_NEW, name := "e", seqno := 3 },
         { unusedEntry with state := STATE_DONE, name := "c", seqno := 1 },
         { unusedEntry with state := STATE_DONE, name := "d", seqno := 2 }]
    ∧ specAge8 3 255 = 4 ∧ specAge8 3 0 = 3 ∧ specAge8 3 1 = 2 ∧ specAge8 3 2 = 1 :=
  ⟨rfl, rfl, rfl, rfl, rfl, rfl⟩

/-- Claim C5, counterexample.  The claim states that a response whose 16-bit
ID was not produced by the encoding scheme for any valid slot is discarded
silently with no state change and no event.  `RESOLV_ENCODE_INDEX` only ever
produces the IDs `61616 + j` for `j < 4` (second conjunct), so the ID `61872`
of `pktSpoofed` was never produced; but `RESOLV_DECODE_INDEX` truncates to
8 bits, decodes it to slot 0 and the handler processes it: the asking entry
is moved to `STATE_ERROR` with `err = 3` and a null-address event fires
(first conjunct) — neither silent nor state-preserving. -/
theorem foreign_id_accepted_modulo_256 :
    newdata pktSpoofed tblBar =
      some ([{ unusedEntry with state := STATE_ERROR, name := "bar", err := 3 },
             unusedEntry, unusedEntry, unusedEntry], [("bar", none)])
    ∧ (∀ j : Fin RESOLV_ENTRIES, RESOLV_ENCODE_INDEX (j : Nat) ≠ 241 * 256 + 176) := by
  constructor
  · rfl
  · decide

/-- Claim C6.  An entry that is queried and never receives a response: over a
40-tick run the unicast entry reaches `STATE_ERROR` with `retries` equal to
`RESOLV_CONF_MAX_RETRIES = 8`, and the whole run emits exactly one event,
carrying a null address; likewise an mDNS entry over 12 ticks with the
distinct maximum `RESOLV_CONF_MAX_MDNS_RETRIES = 3`.  (Exhaustion happens
before the horizon, so the single-element event list also shows that no
further event fires after the transition to Error.) -/
theorem retry_exhaustion_single_error_event (nm : String) :
    ((runTicks 40 (singleQueryTable nm false)).2 = [(nm, none)]
      ∧ (runTicks 40 (singleQueryTable nm false)).1.head?.map Namemap.state
          = some STATE_ERROR
      ∧ (runTicks 40 (singleQueryTable nm false)).1.head?.map Namemap.retries
          = some RESOLV_CONF_MAX_RETRIES)
    ∧ ((runTicks 12 (singleQueryTable nm true)).2 = [(nm, none)]
      ∧ (runTicks 12 (singleQueryTable nm true)).1.head?.map Namemap.state
          = some STATE_ERROR
      ∧ (runTicks 12 (singleQueryTable nm true)).1.head?.map Namemap.retries
          = some RESOLV_CONF_MAX_MDNS_RETRIES) :=
  ⟨⟨rfl, rfl, rfl⟩, ⟨rfl, rfl, rfl⟩⟩

/-- Claim C7, counterexample.  The claim states the scan stops at the first
entry found in state New or Asking.  On `tblTwoPending` the first pending
entry is slot 0 (Asking, timer 2): the scan decrements its timer to 1 and
continues, then acts on slot 1 (New → Asking) and sends the packet for
slot 1 — two entries are acted on and the scan did not stop at the first. -/
theorem scan_continues_past_first_pending_entry :
    (check_entries tblTwoPending).1 =
      [{ unusedEntry with state := STATE_ASKING, name := "p", tmr := 1, retries := 1 },
       { unusedEntry with state := STATE_ASKING, name := "q", tmr := 1 },
       unusedEntry, unusedEntry]
    ∧ (check_entries tblTwoPending).2.2 = [1] :=
  ⟨rfl, rfl⟩

/-- Helper for claim C7: every branch of the scan either sends one packet and
stops, or sends nothing and recurses, so at most one packet is sent. -/
theorem checkEntriesGo_sends_length_le_one (t : List Namemap) :
    ∀ i : Nat, (checkEntriesGo t i).2.2.length ≤ 1 := by
  induction t with
  | nil => intro i; simp [checkEntriesGo]
  | cons e rest ih =>
    intro i
    obtain ⟨st, tmr, rt, sq, er, md, nm, ip⟩ := e
    have h := ih (i + 1)
    rcases hgo : checkEntriesGo rest (i + 1) with ⟨ts, ns, ss⟩
    rw [hgo] at h
    simp only [checkEntriesGo, hgo]
    repeat' split
    all_goals first
      | simpa using h
      | simp

/-- Claim C7, amended.  In every single invocation of the query driver's
table scan, at most one query packet is sent, regardless of table size or how
many entries are pending (every packet send is immediately followed by the
`break`; what fails in the original claim is only that the scan does not stop
at the first New/Asking entry — earlier Asking entries may still have their
timer decremented or move to Error while the scan continues). -/
theorem at_most_one_send_per_scan (t : List Namemap) :
    (check_entries t).2.2.length ≤ 1 :=
  checkEntriesGo_sends_length_le_one t 0

/-- Claim C5, amended theorem.  Every inbound response datagram (flag bytes
not both zero) is discarded silently — table returned unchanged, no event —
whenever the code's decode of its ID (16-bit big-endian value minus 61616,
truncated to 8 bits) is outside `[0, capacity)`, or the decoded entry is not
in `STATE_ASKING`, or the low byte of the declared answer count is zero
(which in particular covers an answer count of zero). -/
theorem unsolicited_response_discarded
    (b0 b1 b2 b3 b4 b5 b6 b7 : Nat) (rest : List Nat) (names : List Namemap)
    (hflags : ¬ (b2 = 0 ∧ b3 = 0))
    (hdisc : names.length ≤ RESOLV_DECODE_INDEX (b0 * 256 + b1)
        ∨ (∀ e, names[RESOLV_DECODE_INDEX (b0 * 256 + b1)]? = some e →
            e.state ≠ STATE_ASKING)
        ∨ b7 = 0) :
    newdata (b0 :: b1 :: b2 :: b3 :: b4 :: b5 :: b6 :: b7 :: rest) names =
      some (names, []) := by
  rcases hget : names[RESOLV_DECODE_INDEX (b0 * 256 + b1)]? with _ | e
  · simp [newdata, hflags, hget]
  · rcases hdisc with h | h | h
    · rw [List.getElem?_eq_none h] at hget
      cases hget
    · have hs := h e hget
      simp [newdata, hflags, hget, hs]
    · subst h
      by_cases hs : e.state = STATE_ASKING
      · simp [newdata, hflags, hget, hs]
      · simp [newdata, hflags, hget, hs]

/-- Witness for the amended claim C5: a response with ID 0 decodes to index
80, which is outside the 4-entry table, and is discarded without any change
or event. -/
theorem unsolicited_response_discarded_witness :
    newdata [0, 0, 132, 0, 0, 0, 0, 0] emptyTable = some (emptyTable, []) :=
  unsolicited_response_discarded 0 0 132 0 0 0 0 0 [] emptyTable
    (by decide) (Or.inl (by decide))

/-- Helper: the pointer branch of `parse_name` — writes 0 over the pointer
byte, consumes exactly two bytes, and never looks at the second byte or the
pointer target. -/
theorem parseNameF_pointer (f b : Nat) (rest : List Nat) (hb : b &&& 192 ≠ 0) :
    parseNameF (f + 1) (b :: rest) = some (2, 0 :: rest) := by
  simp [parseNameF, hb]

/-- Helper: a valid label length (below 64) never looks like a pointer. -/
theorem land192_eq_zero_of_lt64 (n : Nat) (h : n < 64) : n &&& 192 = 0 := by
  interval_cases n <;> rfl

/-- Helper: a pointer byte is nonzero. -/
theorem ne_zero_of_land192 (b : Nat) (hb : b &&& 192 ≠ 0) : b ≠ 0 := by
  intro h
  subst h
  simp at hb

/-- Helper: on a nonempty label sequence the dotified labels start with a
dot and read as the dot-separated join. -/
theorem dotPrefix_eq_cons_dotJoin (L : List (List Nat)) (h : L ≠ []) :
    dotPrefix L = 46 :: dotJoin L := by
  induction L with
  | nil => cases h rfl
  | cons l L ih =>
    cases L with
    | nil => simp [dotPrefix, dotJoin]
    | cons l2 L2 =>
      simp only [dotPrefix, List.map_cons, List.flatten_cons, dotJoin] at ih ⊢
      rw [ih (by simp)]
      simp

/-- Helper: one non-pointer iteration of `parse_name` whose label is
followed by the terminating zero byte: the length byte becomes a dot and the
terminator is consumed. -/
theorem parseNameF_step_terminal (f : Nat) (chars tl : List Nat)
    (hn : chars.length &&& 192 = 0) :
    parseNameF (f + 1) (chars.length :: (chars ++ 0 :: tl)) =
      some (chars.length + 2, 46 :: (chars ++ 0 :: tl)) := by
  have h1 : ¬ (chars.length &&& 192 ≠ 0) := by simp [hn]
  have h2 : ¬ ((chars ++ 0 :: tl).length < chars.length) := by simp
  simp only [parseNameF, h1, h2, if_neg, if_false, if_true, List.drop_left]

/-- Helper: one non-pointer iteration of `parse_name` whose label is
followed by a nonzero byte `hd`: the length byte becomes a dot and parsing
continues at `hd`. -/
theorem parseNameF_step_rec (f : Nat) (chars tl : List Nat) (hd : Nat)
    (res : Nat × List Nat) (hn : chars.length &&& 192 = 0) (hhd : hd ≠ 0)
    (hrec : parseNameF f (hd :: tl) = some res) :
    parseNameF (f + 1) (chars.length :: (chars ++ hd :: tl)) =
      some (1 + chars.length + res.1, 46 :: chars ++ res.2) := by
  have h1 : ¬ (chars.length &&& 192 ≠ 0) := by simp [hn]
  have h2 : ¬ ((chars ++ hd :: tl).length < chars.length) := by simp
  simp only [parseNameF, h1, h2, if_neg, if_false, List.drop_left,
    List.take_left, hhd, hrec]

/-- Helper for claim C9: skipping a name that consists of the (possibly
empty) label sequence `L` followed by a pointer byte `b` consumes the labels
plus exactly two bytes for the pointer, overwrites the pointer byte with 0,
and is independent of everything after the pointer byte (so the pointer
target is never read or followed). -/
theorem parseNameF_wire_pointer (b : Nat) (hb : b &&& 192 ≠ 0) :
    ∀ L : List (List Nat), (∀ l ∈ L, 0 < l.length ∧ l.length < 64) →
      ∀ (rest : List Nat) (f : Nat), (wirePrefix L).length + 1 ≤ f →
        parseNameF f (wirePrefix L ++ b :: rest) =
          some ((wirePrefix L).length + 2, dotPrefix L ++ 0 :: rest) := by
  intro L
  induction L with
  | nil =>
    intro _ rest f hf
    match f, hf with
    | f + 1, _ =>
      simpa [wirePrefix, dotPrefix] using parseNameF_pointer f b rest hb
  | cons l L ih =>
    intro hL rest f hf
    obtain ⟨hl0, hl64⟩ := hL l (List.mem_cons_self l L)
    have hLrest : ∀ l2 ∈ L, 0 < l2.length ∧ l2.length < 64 :=
      fun l2 h2 => hL l2 (List.mem_cons_of_mem l h2)
    have hlen1 : (wirePrefix (l :: L)).length = 1 + l.length + (wirePrefix L).length := by
      simp [wirePrefix]
      omega
    match f, hf with
    | f + 1, hf =>
      have hshape : wirePrefix (l :: L) ++ b :: rest
          = l.length :: (l ++ (wirePrefix L ++ b :: rest)) := by
        simp [wirePrefix, List.append_assoc]
      have hn : l.length &&& 192 = 0 := land192_eq_zero_of_lt64 l.length hl64
      have hrec := ih hLrest rest f (by rw [hlen1] at hf; omega)
      have hhd : ∃ hd tl2, wirePrefix L ++ b :: rest = hd :: tl2 ∧ hd ≠ 0 := by
        cases L with
        | nil =>
          exact ⟨b, rest, by simp [wirePrefix], ne_zero_of_land192 b hb⟩
        | cons l2 L2 =>
          refine ⟨l2.length, l2 ++ (wirePrefix L2 ++ b :: rest), ?_, ?_⟩
          · simp [wirePrefix, List.append_assoc]
          · have := hLrest l2 (List.mem_cons_self l2 L2)
            omega
      obtain ⟨hd, tl2, htl, hhd0⟩ := hhd
      rw [htl] at hrec
      rw [hshape, htl, parseNameF_step_rec f l tl2 hd _ hn hhd0 hrec]
      simp only [Option.some.injEq, Prod.mk.injEq]
      constructor
      · omega
      · simp [dotPrefix, List.append_assoc]

/-- Helper for claim C10: `parse_name` on a complete uncompressed wire-format
name followed by arbitrary bytes consumes exactly the name (terminator
included) and replaces every label length byte by a dot, leaving the label
characters and the terminator untouched. -/
theorem parseNameF_wire_terminal :
    ∀ L : List (List Nat), L ≠ [] → (∀ l ∈ L, 0 < l.length ∧ l.length < 64) →
      ∀ (rest : List Nat) (f : Nat), (wirePrefix L).length + 1 ≤ f →
        parseNameF f (wirePrefix L ++ 0 :: rest) =
          some ((wirePrefix L).length + 1, dotPrefix L ++ 0 :: rest) := by
  intro L
  induction L with
  | nil => intro h; cases h rfl
  | cons l L ih =>
    intro _ hL rest f hf
    obtain ⟨hl0, hl64⟩ := hL l (List.mem_cons_self l L)
    have hLrest : ∀ l2 ∈ L, 0 < l2.length ∧ l2.length < 64 :=
      fun l2 h2 => hL l2 (List.mem_cons_of_mem l h2)
    have hlen1 : (wirePrefix (l :: L)).length = 1 + l.length + (wirePrefix L).length := by
      simp [wirePrefix]
      omega
    have hn : l.length &&& 192 = 0 := land192_eq_zero_of_lt64 l.length hl64
    match f, hf with
    | f + 1, hf =>
      have hshape : wirePrefix (l :: L) ++ 0 :: rest
          = l.length :: (l ++ (wirePrefix L ++ 0 :: rest)) := by
        simp [wirePrefix, List.append_assoc]
      cases L with
      | nil =>
        rw [hshape]
        simp only [wirePrefix, List.map_nil, List.flatten_nil, List.nil_append]
        rw [parseNameF_step_terminal f l rest hn]
        simp only [Option.some.injEq, Prod.mk.injEq]
        constructor
        · simp [wirePrefix]
        · simp [dotPrefix]
      | cons l2 L2 =>
        have hrec := ih (by simp) hLrest rest f (by rw [hlen1] at hf; omega)
        have hl2 := hLrest l2 (List.mem_cons_self l2 L2)
        have htl : wirePrefix (l2 :: L2) ++ 0 :: rest
            = l2.length :: (l2 ++ (wirePrefix L2 ++ 0 :: rest)) := by
          simp [wirePrefix, List.append_assoc]
        rw [htl] at hrec
        rw [hshape, htl, parseNameF_step_rec f l _ l2.length _ hn (by omega) hrec]
        simp only [Option.some.injEq, Prod.mk.injEq]
        constructor
        · rw [← htl] at *
          omega
        · simp [dotPrefix, List.append_assoc]

/-- Claim C9.  When the name-skipping logic meets a byte with both top bits
set (`b &&& 192 = 192`, which makes the code's `n & 0xc0` test true) at the
start of a wire-format name or after any sequence of labels inside one, it
consumes exactly two bytes for the pointer and stops there (first conjunct;
instantiating `L := []` gives the at-the-start case, and the universally
quantified `rest` shows the two bytes at the pointer target are never read
or followed — the result does not depend on them).  The second conjunct is
the answer-record path of `newdata`: a record whose name field starts with
such a byte is skipped by advancing the cursor exactly 2 bytes. -/
theorem pointer_skipped_in_two_bytes (b : Nat) (hb : b &&& 192 = 192) :
    (∀ (L : List (List Nat)) (rest : List Nat),
        (∀ l ∈ L, 0 < l.length ∧ l.length < 64) →
        parseName (wirePrefix L ++ b :: rest) =
          some ((wirePrefix L).length + 2, dotPrefix L ++ 0 :: rest))
    ∧ (∀ (pkt : List Nat) (c : Nat), pkt[c]? = some b →
        skipRecordName pkt c = some (c + 2)) := by
  have hb0 : b &&& 192 ≠ 0 := by rw [hb]; decide
  constructor
  · intro L rest hL
    unfold parseName
    apply parseNameF_wire_pointer b hb0 L hL rest
    simp
  · intro pkt c hc
    unfold skipRecordName
    rw [hc]
    simp [hb0]

/-- Witness for claim C9 at concrete inputs: a bare pointer `[0xc0, 0x0c]`,
a pointer after the single label `a`, and an answer-record skip. -/
theorem pointer_skipped_in_two_bytes_witness :
    parseName [192, 12] = some (2, [0, 12])
    ∧ parseName [1, 97, 192, 12] = some (4, [46, 97, 0, 12])
    ∧ skipRecordName [192, 12, 0, 1] 0 = some 2 := by
  have h := pointer_skipped_in_two_bytes 192 (by decide)
  refine ⟨?_, ?_, ?_⟩
  · simpa [wirePrefix, dotPrefix] using h.1 [] [12] (by decide)
  · simpa [wirePrefix, dotPrefix] using h.1 [[97]] [12] (by decide)
  · simpa using h.2 [192, 12, 0, 1] 0 (by decide)

/-- Claim C10.  `parse_name` mutates the packet buffer in place: on every
uncompressed wire-format name (nonempty labels shorter than 64 bytes) it
overwrites each label length byte with `'.'` (46), leaves the label
characters and the terminating zero unchanged, and consumes exactly the
name — so after the call the bytes starting one past the original cursor
read `dotJoin L ++ [0]`: a dot-separated, zero-terminated text string (first
conjunct).  A compression-pointer byte is overwritten with 0 (second
conjunct).  Skipping is not read-only. -/
theorem parse_name_rewrites_buffer_to_dotted_text :
    (∀ (L : List (List Nat)) (rest : List Nat), L ≠ [] →
        (∀ l ∈ L, 0 < l.length ∧ l.length < 64) →
        parseName (wireName L ++ rest) =
          some ((wireName L).length, 46 :: (dotJoin L ++ 0 :: rest)))
    ∧ (∀ (b : Nat) (rest : List Nat), b &&& 192 ≠ 0 →
        parseName (b :: rest) = some (2, 0 :: rest)) := by
  constructor
  · intro L rest hne hL
    have hshape : wireName L ++ rest = wirePrefix L ++ 0 :: rest := by
      simp [wireName, List.append_assoc]
    have h := parseNameF_wire_terminal L hne hL rest
        (wirePrefix L ++ 0 :: rest).length (by simp)
    unfold parseName
    rw [hshape, h]
    have hlen : (wireName L).length = (wirePrefix L).length + 1 := by
      simp [wireName]
    rw [hlen, dotPrefix_eq_cons_dotJoin L hne]
    simp
  · intro b rest hb
    unfold parseName
    exact parseNameF_pointer rest.length b rest hb

/-- Witness for claim C10: the two-label name `foo.bar` followed by stray
bytes; the buffer comes back with both length bytes dotified and, from one
byte past the cursor, reads `foo.bar` dot-separated and zero-terminated. -/
theorem parse_name_rewrites_buffer_to_dotted_text_witness :
    parseName [3, 102, 111, 111, 3, 98, 97, 114, 0, 7, 7] =
      some (9, [46, 102, 111, 111, 46, 98, 97, 114, 0, 7, 7]) := by
  have h := (parse_name_rewrites_buffer_to_dotted_text).1
      [[102, 111, 111], [98, 97, 114]] [7, 7] (by decide) (by decide)
  simpa [wireName, wirePrefix, dotJoin] using h

/-- Helper for claim C8: the selection loop of `resolv_query` stops at the
first entry that is unused or matches the queried name, whatever the running
`lseq`/`lseqi` accumulators hold. -/
theorem selectGo_breaks_at_first_match (sq : Nat) (nm : String) (e : Namemap)
    (he : e.state = STATE_UNUSED ∨ e.name = nm) :
    ∀ pre : List Namemap, (∀ p ∈ pre, p.state ≠ STATE_UNUSED ∧ p.name ≠ nm) →
    ∀ (post : List Namemap) (i lseq lseqi : Nat),
      selectGo sq nm (pre ++ e :: post) i lseq lseqi = i + pre.length := by
  intro pre
  induction pre with
  | nil =>
    intro _ post i lseq lseqi
    simp [selectGo, he]
  | cons p pre ih =>
    intro hpre post i lseq lseqi
    obtain ⟨h1, h2⟩ := hpre p (List.mem_cons_self p pre)
    have hrest : ∀ q ∈ pre, q.state ≠ STATE_UNUSED ∧ q.name ≠ nm :=
      fun q hq => hpre q (List.mem_cons_of_mem p hq)
    have hcond : ¬ (p.state = STATE_UNUSED ∨ p.name = nm) := by
      rintro (h | h)
      · exact h1 h
      · exact h2 h
    rw [List.cons_append, selectGo, if_neg hcond]
    have hl : (p :: pre).length = pre.length + 1 := rfl
    by_cases hc : (sq : Int) - (p.seqno : Int) > (lseq : Int)
    · rw [if_pos hc, ih hrest post (i + 1) _ i]
      omega
    · rw [if_neg hc, ih hrest post (i + 1) lseq lseqi]
      omega

/-- Helper for claim C8: reading the slot just past a prefix. -/
theorem getElem_append_len (pre : List Namemap) (e : Namemap) (post : List Namemap) :
    (pre ++ e :: post)[pre.length]? = some e := by
  induction pre with
  | nil => simp
  | cons p pre ih => simpa using ih

/-- Helper for claim C8: overwriting the slot just past a prefix. -/
theorem set_append_len (pre : List Namemap) (e e2 : Namemap) (post : List Namemap) :
    (pre ++ e :: post).set pre.length e2 = pre ++ e2 :: post := by
  induction pre with
  | nil => rfl
  | cons p pre ih => simp [ih]

/-- Helper for claim C8: a table whose only entry named `nm` sits between an
unmatched prefix and an unmatched suffix holds exactly one entry named `nm`. -/
theorem countNamed_of_unique (nm : String) (pre post : List Namemap) (e : Namemap)
    (hpre : ∀ p ∈ pre, p.name ≠ nm) (hpost : ∀ p ∈ post, p.name ≠ nm)
    (he : e.name = nm) :
    countNamed nm (pre ++ e :: post) = 1 := by
  unfold countNamed
  rw [List.filter_append]
  have h1 : pre.filter (fun p => p.name == nm) = [] := by
    rw [List.filter_eq_nil_iff]
    intro p hp
    simpa using hpre p hp
  have h2 : post.filter (fun p => p.name == nm) = [] := by
    rw [List.filter_eq_nil_iff]
    intro p hp
    simpa using hpost p hp
  simp [List.filter_cons, he, h1, h2]

/-- Claim C8.  Re-querying a name whose entry is still pending (state New or
Asking) does not create a second table entry: provided the table holds
exactly one entry with the (dot-stripped) name and — as in every reachable
table, where used slots precede unused ones — no unused slot before it, the
selection loop picks exactly that entry, the entry is reused in place with
its state reset to `STATE_NEW` and its `seqno` refreshed to the current
global counter, every other slot is untouched, the global counter increments
modulo 256, and afterwards the table still holds exactly one entry with that
name. -/
theorem query_reuses_existing_entry
    (pre post : List Namemap) (e : Namemap) (sq : Nat) (name : String)
    (hpre : ∀ p ∈ pre, p.state ≠ STATE_UNUSED ∧ p.name ≠ stripTrailingDots name)
    (hname : e.name = stripTrailingDots name)
    (hpending : e.state = STATE_NEW ∨ e.state = STATE_ASKING)
    (hpost : ∀ p ∈ post, p.name ≠ stripTrailingDots name) :
    resolv_query (pre ++ e :: post) sq name =
      (pre ++ { e with is_mdns := resolvIsMdns (stripTrailingDots name),
                       name := stripTrailingDots name,
                       state := STATE_NEW, seqno := sq } :: post,
       (sq + 1) % 256)
    ∧ countNamed (stripTrailingDots name)
        (resolv_query (pre ++ e :: post) sq name).1 = 1 := by
  have hsel : selectIndex (pre ++ e :: post) sq (stripTrailingDots name) = pre.length := by
    have h := selectGo_breaks_at_first_match sq (stripTrailingDots name) e
        (Or.inr hname) pre hpre post 0 0 0
    simpa [selectIndex] using h
  have hq : resolv_query (pre ++ e :: post) sq name =
      (pre ++ { e with is_mdns := resolvIsMdns (stripTrailingDots name),
                       name := stripTrailingDots name,
                       state := STATE_NEW, seqno := sq } :: post,
       (sq + 1) % 256) := by
    unfold resolv_query
    rw [hsel, getElem_append_len]
    simp only [set_append_len]
  refine ⟨hq, ?_⟩
  rw [hq]
  exact countNamed_of_unique (stripTrailingDots name) pre post _
    (fun p hp => (hpre p hp).2) hpost rfl

/-- Witness for claim C8: re-querying `foo.` (stripping to `foo`) while slot
1 is still Asking for `foo` reuses slot 1 — state back to New, `seqno`
refreshed to the current counter 5 — and the table still has exactly one
entry named `foo`. -/
theorem query_reuses_existing_entry_witness :
    resolv_query [doneAaa, askFoo, unusedEntry] 5 "foo." =
      ([doneAaa,
        { askFoo with is_mdns := resolvIsMdns (stripTrailingDots "foo."),
                      name := stripTrailingDots "foo.",
                      state := STATE_NEW, seqno := 5 },
        unusedEntry], 6)
    ∧ countNamed (stripTrailingDots "foo.")
        (resolv_query [doneAaa, askFoo, unusedEntry] 5 "foo.").1 = 1 := by
  have h := query_reuses_existing_entry [doneAaa] [unusedEntry] askFoo 5 "foo."
      (by decide) (by decide) (by decide) (by decide)
  exact h

end Resolv
